import Mathlib

/-!
Shallow embedding of the data-shaping core of the react-native-heatmap
library (src/utils/index.ts), together with proofs about the claims of
its specification.

Modelling conventions:
- A JS `Date` holding a midnight-UTC calendar date is modelled as the
  number of days since the Unix epoch (an `Int`).  All date arithmetic in
  the source acts on such midnight dates in whole-day steps, so the
  millisecond arithmetic of the source is exact day arithmetic here.
- A JS `number` is modelled as `ℚ`; every numeric computation the claims
  exercise is exact in binary floating point on the inputs considered.
- A color string is modelled in parsed form: `Color.rgb r g b` stands for
  the hex string `#rrggbb`; `Color.transparent` for the literal string
  `transparent`; `Color.undef` for the JS `undefined` that leaks out of an
  out-of-range palette index.  Hex parsing and lowercase formatting are a
  bijection on six-digit hex strings, so interpolation is modelled
  directly on components.
- `undefined`/`null`-able values are modelled with `Option`.
-/

namespace Heatmap

/-- The values that flow through the `date` field of cells: a plain ISO
`YYYY-MM-DD` string (as the day count since the epoch), the
`YYYY-MM-DDTHH:00:00` string synthesized by the daily layout, or the empty
string used by the monthly layout for padding cells. -/
inductive DateVal where
  | iso (day : Int)
  | hourStamp (day : Int) (hour : Nat)
  | blank
deriving DecidableEq

/-- A color value as carried around by the library. -/
inductive Color where
  | rgb (r g b : Int)
  | transparent
  | undef
deriving DecidableEq

/-- Input record from the caller (`HeatmapData` in src/types): a date, a
numeric value (which at runtime may be `undefined`/`null`, hence `Option`)
and an opaque metadata bag (modelled by an opaque token). -/
structure HeatmapData where
  date : DateVal
  value : Option ℚ
  metadata : Option Nat
deriving DecidableEq

/-- `ColorScheme` from the types module: a named, ordered palette.  The
interface also declares an optional `interpolation` label
(`linear | exponential | logarithmic`); no function of the utils module
ever reads it and no preset sets it, so it is omitted here. -/
structure ColorScheme where
  name : String
  colors : List Color
  levels : Option Nat
  emptyColor : Option Color
deriving DecidableEq

/-- One processed grid cell (`ProcessedCellData` in src/types). -/
structure ProcessedCellData where
  date : DateVal
  value : ℚ
  metadata : Option Nat
  x : Int
  y : Int
  color : Color
  isEmpty : Bool
  normalizedValue : ℚ
  week : Option Int
  dayOfWeek : Option Int
deriving DecidableEq

/-! ## Civil calendar arithmetic

The JS `Date` methods `getFullYear`, `getMonth`, `getDate` on a midnight
date are the civil-from-days conversion of the proleptic Gregorian
calendar; `new Date(year, month, day)` is its inverse, with month
overflow normalized.  These are the standard era-based conversions. -/

/-- Days-since-epoch to civil `(year, month 1..12, day 1..31)`. -/
def civilFromDays (z0 : Int) : Int × Int × Int :=
  let z := z0 + 719468
  let era := Int.fdiv z 146097
  let doe := z - era * 146097
  let yoe := Int.ediv (doe - Int.ediv doe 1460 + Int.ediv doe 36524 - Int.ediv doe 146096) 365
  let y := yoe + era * 400
  let doy := doe - (365 * yoe + Int.ediv yoe 4 - Int.ediv yoe 100)
  let mp := Int.ediv (5 * doy + 2) 153
  let d := doy - Int.ediv (153 * mp + 2) 5 + 1
  let m := mp + (if mp < 10 then 3 else -9)
  (y + (if m ≤ 2 then 1 else 0), m, d)

/-- Civil `(year, month 1..12, day)` to days since the epoch. -/
def daysFromCivil (y0 m d : Int) : Int :=
  let y := y0 - (if m ≤ 2 then 1 else 0)
  let era := Int.fdiv y 400
  let yoe := y - era * 400
  let mp := Int.emod (m + 9) 12
  let doy := Int.ediv (153 * mp + 2) 5 + d - 1
  let doe := yoe * 365 + Int.ediv yoe 4 - Int.ediv yoe 100 + doy
  era * 146097 + doe - 719468

/-- `Date.prototype.getFullYear` on a midnight date. -/
def getFullYear (day : Int) : Int := (civilFromDays day).1

/-- `Date.prototype.getMonth` (0-based month) on a midnight date. -/
def getMonth (day : Int) : Int := (civilFromDays day).2.1 - 1

/-- `Date.prototype.getDate` (1-based day of month) on a midnight date. -/
def getDate (day : Int) : Int := (civilFromDays day).2.2

/-- The JS `new Date(year, month, day)` constructor with 0-based,
overflowing month and 1-based, overflowing day, as a day count. -/
def jsMakeDate (year month day : Int) : Int :=
  let y := year + Int.fdiv month 12
  let m := Int.emod month 12
  daysFromCivil y (m + 1) 1 + (day - 1)

theorem civilFromDays_epoch : civilFromDays 0 = (1970, 1, 1) := rfl

theorem daysFromCivil_epoch : daysFromCivil 1970 1 1 = 0 := rfl

theorem civilFromDays_leap_day : civilFromDays 19782 = (2024, 2, 29) := rfl

/-- `Math.ceil` on an exact rational. -/
def mathCeil (q : ℚ) : Int := Int.ceil q

/-- `Math.round` (round half toward positive infinity). -/
def jsRound (q : ℚ) : Int := Int.floor (q + 1 / 2)

/-! ## Date utilities (src/utils/index.ts lines 20-63) -/

/-- The body of the `while (current <= endDate)` loop of
`generateDateRange`, with the iteration count made explicit. -/
def genRangeAux : Nat → Int → List Int
  | 0, _ => []
  | Nat.succ n, cur => cur :: genRangeAux n (cur + 1)

/-- `generateDateRange`: every day from `startDate` to `endDate`
inclusive; the loop guard fails immediately when `endDate < startDate`. -/
def generateDateRange (startDate endDate : Int) : List Int :=
  genRangeAux (endDate + 1 - startDate).toNat startDate

/-- `generateDateRange` as invoked on raw JS `Date` arguments: an invalid
date (`NaN` time value, modelled as `none`) makes the `<=` loop guard
false at once, so the loop body never runs. -/
def generateDateRangeJS : Option Int → Option Int → List Int
  | some s, some e => generateDateRange s e
  | _, _ => []

/-- A caller-supplied date string: either a well-formed `YYYY-MM-DD`
(carrying its day number) or malformed text. -/
inductive DateString where
  | wellFormed (day : Int)
  | malformed
deriving DecidableEq

/-- `parseISODate` on an arbitrary string: `new Date(s + suffix)` never
throws; a malformed string yields an Invalid Date, modelled as `none`. -/
def parseISODateStr : DateString → Option Int
  | .wellFormed d => some d
  | .malformed => none

/-- `parseISODate` applied to a `date` field of a cell: only the plain ISO
form parses; the hour-stamped and blank strings give an Invalid Date. -/
def parseISODate : DateVal → Option Int
  | .iso d => some d
  | _ => none

/-- `getDayOfWeek` (src lines 61-63): 0 = Sunday.  1970-01-01 was a
Thursday, hence the offset 4. -/
def getDayOfWeek (day : Int) : Int := (day + 4) % 7

/-- `getWeekNumber` (src lines 52-56): day-of-year based week number. -/
def getWeekNumber (day : Int) : Int :=
  let firstDayOfYear := jsMakeDate (getFullYear day) 0 1
  let pastDaysOfYear : ℚ := ((day - firstDayOfYear : Int) : ℚ)
  mathCeil ((pastDaysOfYear + ((getDayOfWeek firstDayOfYear : Int) : ℚ) + 1) / 7)

theorem getDayOfWeek_known_sunday : getDayOfWeek 19729 = 0 := rfl

/-! ## Value normalization and colors (src/utils/index.ts lines 65-155) -/

/-- `normalizeValue` (src lines 68-75). -/
def normalizeValue (value vmin vmax : ℚ) : ℚ :=
  if vmax = vmin then (if value > 0 then 1 else 0)
  else Max.max 0 (Min.min 1 ((value - vmin) / (vmax - vmin)))

/-- JS array indexing `colors[i]`: `undefined` outside the bounds. -/
def colorAt (colors : List Color) (i : Int) : Color :=
  if h : 0 ≤ i ∧ i.toNat < colors.length then colors.get ⟨i.toNat, h.2⟩
  else Color.undef

/-- `interpolateColor` (src lines 117-138): componentwise linear mix with
`Math.round`; a non-hex operand would propagate `NaN` components, which is
collapsed into `Color.undef`. -/
def interpolateColor (color1 color2 : Color) (factor : ℚ) : Color :=
  match color1, color2 with
  | .rgb r1 g1 b1, .rgb r2 g2 b2 =>
      .rgb (jsRound ((r1 : ℚ) + ((r2 : ℚ) - (r1 : ℚ)) * factor))
           (jsRound ((g1 : ℚ) + ((g2 : ℚ) - (g1 : ℚ)) * factor))
           (jsRound ((b1 : ℚ) + ((b2 : ℚ) - (b1 : ℚ)) * factor))
  | _, _ => Color.undef

/-- `calculateColor` (src lines 80-112).  The `||` fallbacks of the
source are JS-falsy tests: `levels: 0` falls back to `colors.length`. -/
def calculateColor (normalizedValue : ℚ) (colorScheme : ColorScheme)
    (isEmpty : Bool) : Color :=
  if isEmpty || normalizedValue == 0 then
    colorScheme.emptyColor.getD (colorScheme.colors.headD (.rgb 240 240 240))
  else
    let colors := colorScheme.colors
    let levels : Nat := match colorScheme.levels with
      | some l => if l == 0 then colors.length else l
      | none => colors.length
    if normalizedValue ≥ 1 then
      colorAt colors ((colors.length : Int) - 1)
    else
      let scaledValue := normalizedValue * ((levels : ℚ) - 1)
      let lowerIndex := Int.floor scaledValue
      let upperIndex := Min.min (lowerIndex + 1) ((colors.length : Int) - 1)
      let factor := scaledValue - (lowerIndex : ℚ)
      if factor == 0 || lowerIndex == upperIndex then
        colorAt colors lowerIndex
      else
        interpolateColor (colorAt colors lowerIndex) (colorAt colors upperIndex) factor

/-- The `github` preset of the `COLOR_SCHEMES` table in the types module. -/
def githubScheme : ColorScheme :=
  { name := "github"
    colors := [.rgb 235 237 240,
               .rgb 155 233 168,
               .rgb 64 196 99,
               .rgb 48 161 78,
               .rgb 33 110 57]
    levels := none
    emptyColor := some (.rgb 235 237 240) }

/-- The `githubDark` preset of the `COLOR_SCHEMES` table in the types module. -/
def githubDarkScheme : ColorScheme :=
  { name := "githubDark"
    colors := [.rgb 22 27 34,
               .rgb 14 68 41,
               .rgb 0 109 50,
               .rgb 38 166 65,
               .rgb 57 211 83]
    levels := none
    emptyColor := some (.rgb 22 27 34) }

/-- The `heat` preset of the `COLOR_SCHEMES` table in the types module. -/
def heatScheme : ColorScheme :=
  { name := "heat"
    colors := [.rgb 255 255 204,
               .rgb 255 237 160,
               .rgb 254 217 118,
               .rgb 254 178 76,
               .rgb 253 141 60,
               .rgb 252 78 42,
               .rgb 227 26 28,
               .rgb 177 0 38]
    levels := none
    emptyColor := some (.rgb 240 240 240) }

/-- The `cool` preset of the `COLOR_SCHEMES` table in the types module. -/
def coolScheme : ColorScheme :=
  { name := "cool"
    colors := [.rgb 247 251 255,
               .rgb 222 235 247,
               .rgb 198 219 239,
               .rgb 158 202 225,
               .rgb 107 174 214,
               .rgb 66 146 198,
               .rgb 33 113 181,
               .rgb 8 69 148]
    levels := none
    emptyColor := some (.rgb 247 251 255) }

/-- The `purple` preset of the `COLOR_SCHEMES` table in the types module. -/
def purpleScheme : ColorScheme :=
  { name := "purple"
    colors := [.rgb 252 251 253,
               .rgb 239 237 245,
               .rgb 218 218 235,
               .rgb 188 189 220,
               .rgb 158 154 200,
               .rgb 128 125 186,
               .rgb 106 81 163,
               .rgb 74 20 134]
    levels := none
    emptyColor := some (.rgb 252 251 253) }

/-- The `green` preset of the `COLOR_SCHEMES` table in the types module. -/
def greenScheme : ColorScheme :=
  { name := "green"
    colors := [.rgb 247 252 245,
               .rgb 229 245 224,
               .rgb 199 233 192,
               .rgb 161 217 155,
               .rgb 116 196 118,
               .rgb 65 171 93,
               .rgb 35 139 69,
               .rgb 0 90 50]
    levels := none
    emptyColor := some (.rgb 247 252 245) }

/-- The `orange` preset of the `COLOR_SCHEMES` table in the types module. -/
def orangeScheme : ColorScheme :=
  { name := "orange"
    colors := [.rgb 255 245 235,
               .rgb 254 230 206,
               .rgb 253 208 162,
               .rgb 253 174 107,
               .rgb 253 141 60,
               .rgb 241 105 19,
               .rgb 217 72 1,
               .rgb 140 45 4]
    levels := none
    emptyColor := some (.rgb 255 245 235) }

/-- The `red` preset of the `COLOR_SCHEMES` table in the types module. -/
def redScheme : ColorScheme :=
  { name := "red"
    colors := [.rgb 255 245 240,
               .rgb 254 224 210,
               .rgb 252 187 161,
               .rgb 252 146 114,
               .rgb 251 106 74,
               .rgb 239 59 44,
               .rgb 203 24 29,
               .rgb 153 0 13]
    levels := none
    emptyColor := some (.rgb 255 245 240) }

/-- The `blue` preset of the `COLOR_SCHEMES` table in the types module. -/
def blueScheme : ColorScheme :=
  { name := "blue"
    colors := [.rgb 247 251 255,
               .rgb 222 235 247,
               .rgb 198 219 239,
               .rgb 158 202 225,
               .rgb 107 174 214,
               .rgb 66 146 198,
               .rgb 33 113 181,
               .rgb 8 69 148]
    levels := none
    emptyColor := some (.rgb 247 251 255) }

/-- The `grayscale` preset of the `COLOR_SCHEMES` table in the types module. -/
def grayscaleScheme : ColorScheme :=
  { name := "grayscale"
    colors := [.rgb 255 255 255,
               .rgb 240 240 240,
               .rgb 217 217 217,
               .rgb 189 189 189,
               .rgb 150 150 150,
               .rgb 115 115 115,
               .rgb 82 82 82,
               .rgb 37 37 37]
    levels := none
    emptyColor := some (.rgb 255 255 255) }

/-- The `gitlab` preset of the `COLOR_SCHEMES` table in the types module. -/
def gitlabScheme : ColorScheme :=
  { name := "gitlab"
    colors := [.rgb 253 242 233,
               .rgb 250 213 165,
               .rgb 238 143 0,
               .rgb 209 96 0,
               .rgb 160 65 0]
    levels := none
    emptyColor := some (.rgb 253 242 233) }

/-- The `bitbucket` preset of the `COLOR_SCHEMES` table in the types module. -/
def bitbucketScheme : ColorScheme :=
  { name := "bitbucket"
    colors := [.rgb 230 243 255,
               .rgb 179 217 255,
               .rgb 77 148 255,
               .rgb 0 102 204,
               .rgb 0 77 153]
    levels := none
    emptyColor := some (.rgb 230 243 255) }

/-- The `accessible` preset of the `COLOR_SCHEMES` table in the types module. -/
def accessibleScheme : ColorScheme :=
  { name := "accessible"
    colors := [.rgb 255 255 255,
               .rgb 255 204 0,
               .rgb 255 153 0,
               .rgb 255 102 0,
               .rgb 204 0 0]
    levels := none
    emptyColor := some (.rgb 255 255 255) }

/-- The `neon` preset of the `COLOR_SCHEMES` table in the types module. -/
def neonScheme : ColorScheme :=
  { name := "neon"
    colors := [.rgb 10 10 10,
               .rgb 26 26 46,
               .rgb 22 33 62,
               .rgb 15 52 96,
               .rgb 83 52 131]
    levels := none
    emptyColor := some (.rgb 10 10 10) }

/-- The `sunset` preset of the `COLOR_SCHEMES` table in the types module. -/
def sunsetScheme : ColorScheme :=
  { name := "sunset"
    colors := [.rgb 255 234 167,
               .rgb 253 203 110,
               .rgb 225 112 85,
               .rgb 214 48 49,
               .rgb 162 155 254]
    levels := none
    emptyColor := some (.rgb 255 234 167) }

/-- The static `COLOR_SCHEMES` preset table exported by the types module:
15 named presets keyed by name, in source order (hex color strings in
parsed RGB form; none of the entries sets `levels`). -/
def COLOR_SCHEMES : List (String × ColorScheme) :=
  [("github", githubScheme),
   ("githubDark", githubDarkScheme),
   ("heat", heatScheme),
   ("cool", coolScheme),
   ("purple", purpleScheme),
   ("green", greenScheme),
   ("orange", orangeScheme),
   ("red", redScheme),
   ("blue", blueScheme),
   ("grayscale", grayscaleScheme),
   ("gitlab", gitlabScheme),
   ("bitbucket", bitbucketScheme),
   ("accessible", accessibleScheme),
   ("neon", neonScheme),
   ("sunset", sunsetScheme)]

/-- The `ColorScheme | string` union type of the source. -/
inductive ColorSchemeInput where
  | named (name : String)
  | inline (scheme : ColorScheme)

/-- `resolveColorScheme` (src lines 143-155): unknown names fall back to
the github preset. -/
def resolveColorScheme : ColorSchemeInput → ColorScheme
  | .named s =>
      match COLOR_SCHEMES.lookup s with
      | some predefined => predefined
      | none => githubScheme
  | .inline scheme => scheme

/-! ## processHeatmapData (src/utils/index.ts lines 157-241) -/

/-- The layout selector union of the source. -/
inductive Layout where
  | calendar
  | grid
  | compact
  | custom
deriving DecidableEq

/-- The lookup `Map` built by `data.forEach((item) => dataMap.set(item.date,
item))`: on duplicate dates the last write wins. -/
def lookupMap (data : List HeatmapData) (d : DateVal) : Option HeatmapData :=
  data.foldl (fun acc item => if item.date = d then some item else acc) none

/-- The defined observation values:
`data.map((item) => item.value).filter((v) => v !== undefined && v !== null)`. -/
def observedValues (data : List HeatmapData) : List ℚ :=
  data.filterMap (fun item => item.value)

/-- `Math.min(...values, 0)`. -/
def minValueOf (data : List HeatmapData) : ℚ :=
  (observedValues data).foldr Min.min 0

/-- `Math.max(...values, 0)`. -/
def maxValueOf (data : List HeatmapData) : ℚ :=
  (observedValues data).foldr Max.max 0

/-- `Math.ceil(Math.sqrt(n))` on a cell count. -/
def ceilSqrt (n : Nat) : Nat :=
  if Nat.sqrt n * Nat.sqrt n == n then Nat.sqrt n else Nat.sqrt n + 1

/-- The body of the `dateRange.map((dateString, index) => ...)` callback of
`processHeatmapData` (src lines 184-237).  `dateString` is a date produced
by `generateDateRange`, so `parseISODate(dateString)` is the date itself. -/
def processCell (data : List HeatmapData) (startDate : Int) (rangeLen : Nat)
    (resolvedColorScheme : ColorScheme) (minValue maxValue : ℚ)
    (layout : Layout) (index : Nat) (dateString : Int) : ProcessedCellData :=
  let dataPoint := lookupMap data (DateVal.iso dateString)
  let isEmpty : Bool :=
    match dataPoint with
    | none => true
    | some dp => dp.value.isNone
  let value : ℚ := if isEmpty then 0 else (dataPoint.bind HeatmapData.value).getD 0
  let normalizedValue := normalizeValue value minValue maxValue
  let color := calculateColor normalizedValue resolvedColorScheme isEmpty
  let date := dateString
  let xy : Int × Int :=
    match layout with
    | .calendar =>
        let daysSinceStart := date - startDate
        let weeksSinceStart := Int.fdiv daysSinceStart 7
        (weeksSinceStart, getDayOfWeek date)
    | .grid =>
        let columns := ceilSqrt rangeLen
        (((index % columns : Nat) : Int), ((index / columns : Nat) : Int))
    | .compact => ((index : Int), 0)
    | .custom =>
        let columns := ceilSqrt rangeLen
        (((index % columns : Nat) : Int), ((index / columns : Nat) : Int))
  { date := DateVal.iso dateString
    value := value
    metadata := dataPoint.bind (fun dp => dp.metadata)
    x := xy.1
    y := xy.2
    color := color
    isEmpty := isEmpty
    normalizedValue := normalizedValue
    week := if layout = Layout.calendar then some (getWeekNumber date) else none
    dayOfWeek := if layout = Layout.calendar then some (getDayOfWeek date) else none }

/-- `processHeatmapData` (src lines 160-241). -/
def processHeatmapData (data : List HeatmapData) (startDate endDate : Int)
    (colorScheme : ColorSchemeInput) (layout : Layout) :
    List ProcessedCellData :=
  let resolvedColorScheme := resolveColorScheme colorScheme
  let dateRange := generateDateRange startDate endDate
  dateRange.enum.map (fun p =>
    processCell data startDate dateRange.length resolvedColorScheme
      (minValueOf data) (maxValueOf data) layout p.1 p.2)

/-! ## calculateCalendarLayout (src/utils/index.ts lines 243-314) -/

/-- One month boundary segment.  The source renders the month label with
`toLocaleDateString`; the label text is modelled by `monthShortName`. -/
structure MonthBoundary where
  month : String
  x : Int
  width : Int
deriving DecidableEq

/-- The en-US short month name for a 0-based month index. -/
def monthShortName (m : Int) : String :=
  ["Jan", "Feb", "Mar", "Apr", "May", "Jun",
   "Jul", "Aug", "Sep", "Oct", "Nov", "Dec"].getD m.toNat ""

/-- `CalendarLayoutData`.  The `weeks` count is `maxWeek + 1`; on an empty
cell list `maxWeek` is the `-Infinity` of `Math.max()`, modelled `none`. -/
structure CalendarLayoutData where
  weeks : Option Int
  weekData : List (List ProcessedCellData)
  monthBoundaries : List MonthBoundary

/-- `Math.max(...processedData.map((d) => d.x))`; `none` models the
`-Infinity` returned on an empty list. -/
def maxWeekOf (processedData : List ProcessedCellData) : Option Int :=
  match processedData.map (fun d => d.x) with
  | [] => none
  | a :: rest => some (rest.foldl Max.max a)

/-- The empty cell synthesized for a day missing from a week (src lines
263-277). -/
def emptyWeekCell (startDate : Int) (week dayIndex : Nat) : ProcessedCellData :=
  let cellDate := startDate + week * 7 + dayIndex
  { date := DateVal.iso cellDate
    value := 0
    metadata := none
    x := (week : Int)
    y := (dayIndex : Int)
    color := .rgb 240 240 240
    isEmpty := true
    normalizedValue := 0
    week := some (getWeekNumber cellDate)
    dayOfWeek := some (dayIndex : Int) }

/-- One full 7-day bucket for a week (src lines 255-279). -/
def fullWeekFor (processedData : List ProcessedCellData) (startDate : Int)
    (week : Nat) : List ProcessedCellData :=
  let weekCells := processedData.filter (fun d => d.x == (week : Int))
  (List.range 7).map (fun (dayIndex : Nat) =>
    match weekCells.find? (fun d => d.y == (dayIndex : Int)) with
    | some existingCell => existingCell
    | none => emptyWeekCell startDate week dayIndex)

/-- The mutable state of the month-boundary loop (src lines 285-307). -/
structure MBState where
  currentMonth : Int
  monthStart : Int
  monthBoundaries : List MonthBoundary

/-- One iteration of the month-boundary loop (src lines 288-307). -/
def mbStep (startDate maxWeek : Int) (st : MBState) (week : Int) : MBState :=
  let weekStart := startDate + week * 7
  if getMonth weekStart != st.currentMonth || week == maxWeek then
    let monthBoundaries :=
      if st.monthBoundaries.length > 0 || week > 0 then
        st.monthBoundaries ++
          [{ month := monthShortName st.currentMonth
             x := st.monthStart
             width := week - st.monthStart }]
      else st.monthBoundaries
    { currentMonth := getMonth weekStart
      monthStart := week
      monthBoundaries := monthBoundaries }
  else st

/-- `calculateCalendarLayout` (src lines 246-314).  The `for (let week = 0;
week <= maxWeek; week++)` loops run `(maxWeek + 1).toNat` times: zero times
when the cell list is empty (`maxWeek = -Infinity`) or `maxWeek < 0`. -/
def calculateCalendarLayout (processedData : List ProcessedCellData)
    (startDate : Int) : CalendarLayoutData :=
  let weekCount : Nat :=
    match maxWeekOf processedData with
    | none => 0
    | some m => (m + 1).toNat
  let weekData := (List.range weekCount).map (fullWeekFor processedData startDate)
  let monthBoundaries :=
    match maxWeekOf processedData with
    | none => []
    | some maxWeek =>
        ((List.range weekCount).foldl
          (fun st (w : Nat) => mbStep startDate maxWeek st (w : Int))
          { currentMonth := getMonth startDate
            monthStart := 0
            monthBoundaries := [] }).monthBoundaries
  { weeks := (maxWeekOf processedData).map (fun m => m + 1)
    weekData := weekData
    monthBoundaries := monthBoundaries }

/-! ## Time-based layout utilities (src/utils/index.ts lines 484-665) -/

/-- `formatHour12` (src lines 881-886). -/
def formatHour12 (hour : Nat) : String :=
  if hour = 0 then "12 AM"
  else if hour < 12 then toString hour ++ " AM"
  else if hour = 12 then "12 PM"
  else toString (hour - 12) ++ " PM"

/-- `formatHour24` (src lines 891-893). -/
def formatHour24 (hour : Nat) : String :=
  (if hour < 10 then "0" ++ toString hour else toString hour) ++ ":00"

/-- The `'12h' | '24h'` union. -/
inductive TimeFormat where
  | h12
  | h24
deriving DecidableEq

structure TimeBoundary where
  hour : String
  x : Int
  width : Int
deriving DecidableEq

structure DailyLayoutData where
  hours : Nat
  hourData : List ProcessedCellData
  timeBoundaries : List TimeBoundary

/-- `calculateDailyLayout` (src lines 493-542).  The hour filter compares
`parseISODate(cell.date).getHours()` with the hour: a plain ISO date
parses to midnight (hour 0), any other date string parses to an Invalid
Date whose `getHours()` is `NaN`, and `NaN === hour` is false. -/
def calculateDailyLayout (processedData : List ProcessedCellData)
    (targetDate : Int) (timeFormat : TimeFormat) : DailyLayoutData :=
  let targetDateStr := DateVal.iso targetDate
  let dayData := processedData.filter (fun cell => cell.date == targetDateStr)
  let timeBoundaries := (List.range 24).map (fun (hour : Nat) =>
    { hour := match timeFormat with
        | .h12 => formatHour12 hour
        | .h24 => formatHour24 hour
      x := (hour : Int)
      width := 1 : TimeBoundary })
  let hourlyData := (List.range 24).map (fun (hour : Nat) =>
    match dayData.find? (fun cell =>
        match parseISODate cell.date with
        | some _ => hour == 0
        | none => false) with
    | some hourData => hourData
    | none =>
        { date := DateVal.hourStamp targetDate hour
          value := 0
          metadata := none
          x := (hour : Int)
          y := 0
          color := .rgb 240 240 240
          isEmpty := true
          normalizedValue := 0
          week := none
          dayOfWeek := none })
  { hours := 24, hourData := hourlyData, timeBoundaries := timeBoundaries }

/-- `getStartOfWeek` (src lines 898-905): back up to Sunday. -/
def getStartOfWeek (date : Int) : Int := date - getDayOfWeek date

/-- The en-US short weekday name. -/
def getDayName (d : Int) : String :=
  ["Sun", "Mon", "Tue", "Wed", "Thu", "Fri", "Sat"].getD (getDayOfWeek d).toNat ""

structure DayBoundary where
  day : String
  x : Int
  width : Int
deriving DecidableEq

structure WeeklyLayoutData where
  days : Nat
  dayData : List ProcessedCellData
  dayBoundaries : List DayBoundary

/-- `calculateWeeklyLayout` (src lines 547-591). -/
def calculateWeeklyLayout (processedData : List ProcessedCellData)
    (targetDate : Int) : WeeklyLayoutData :=
  let startOfWeek := getStartOfWeek targetDate
  let weekDates := (List.range 7).map (fun (i : Nat) => startOfWeek + i)
  let dayBoundaries := weekDates.enum.map (fun p =>
    { day := getDayName p.2, x := (p.1 : Int), width := 1 : DayBoundary })
  let dayData := weekDates.enum.map (fun p =>
    match processedData.find? (fun cell => cell.date == DateVal.iso p.2) with
    | some cellData => cellData
    | none =>
        { date := DateVal.iso p.2
          value := 0
          metadata := none
          x := (p.1 : Int)
          y := 0
          color := .rgb 240 240 240
          isEmpty := true
          normalizedValue := 0
          week := none
          dayOfWeek := none })
  { days := 7, dayData := dayData, dayBoundaries := dayBoundaries }

structure WeekBoundary where
  week : Nat
  x : Int
  width : Int
deriving DecidableEq

structure MonthlyLayoutData where
  daysInMonth : Int
  monthData : List (List ProcessedCellData)
  weekBoundaries : List WeekBoundary

/-- `calculateMonthlyLayout` (src lines 596-665). -/
def calculateMonthlyLayout (processedData : List ProcessedCellData)
    (targetDate : Int) : MonthlyLayoutData :=
  let year := getFullYear targetDate
  let month := getMonth targetDate
  let firstDay := jsMakeDate year month 1
  let lastDay := jsMakeDate year (month + 1) 0
  let daysInMonth := getDate lastDay
  let startDayOfWeek := getDayOfWeek firstDay
  let weeks : Nat := (mathCeil (((daysInMonth + startDayOfWeek : Int) : ℚ) / 7)).toNat
  let monthData := (List.range weeks).map (fun (week : Nat) =>
    (List.range 7).map (fun (day : Nat) =>
      let dayNumber : Int := (week : Int) * 7 + (day : Int) - startDayOfWeek + 1
      if 0 < dayNumber ∧ dayNumber ≤ daysInMonth then
        let date := jsMakeDate year month dayNumber
        let dateStr := DateVal.iso date
        match processedData.find? (fun cell => cell.date == dateStr) with
        | some cellData => cellData
        | none =>
            { date := dateStr
              value := 0
              metadata := none
              x := (day : Int)
              y := (week : Int)
              color := .rgb 240 240 240
              isEmpty := true
              normalizedValue := 0
              week := none
              dayOfWeek := none }
      else
        { date := DateVal.blank
          value := 0
          metadata := none
          x := (day : Int)
          y := (week : Int)
          color := .transparent
          isEmpty := true
          normalizedValue := 0
          week := none
          dayOfWeek := none }))
  let weekBoundaries := (List.range weeks).map (fun (index : Nat) =>
    { week := index + 1, x := 0, width := 7 : WeekBoundary })
  { daysInMonth := daysInMonth, monthData := monthData,
    weekBoundaries := weekBoundaries }

/-! ## Basic lemmas about the embedded definitions -/

theorem genRangeAux_length (n : Nat) (cur : Int) : (genRangeAux n cur).length = n := by
  induction n generalizing cur with
  | zero => rfl
  | succ k ih => simp [genRangeAux, ih]

theorem genRangeAux_getElem (n : Nat) (cur : Int) (i : Nat)
    (h : i < (genRangeAux n cur).length) : (genRangeAux n cur)[i] = cur + i := by
  induction n generalizing cur i with
  | zero => simp [genRangeAux_length] at h
  | succ k ih =>
      cases i with
      | zero => simp [genRangeAux]
      | succ j =>
          have hj : j < (genRangeAux k (cur + 1)).length := by
            simpa [genRangeAux_length] using h
          simp only [genRangeAux, List.getElem_cons_succ]
          rw [ih (cur + 1) j hj]
          push_cast
          ring

theorem generateDateRange_length (s e : Int) :
    (generateDateRange s e).length = (e + 1 - s).toNat := by
  simp [generateDateRange, genRangeAux_length]

theorem generateDateRange_getElem (s e : Int) (i : Nat)
    (h : i < (generateDateRange s e).length) : (generateDateRange s e)[i] = s + i := by
  simpa [generateDateRange] using genRangeAux_getElem _ s i (by simpa [generateDateRange] using h)

theorem generateDateRange_empty_of_lt (s e : Int) (h : e < s) :
    generateDateRange s e = [] := by
  have : (e + 1 - s).toNat = 0 := by omega
  simp [generateDateRange, this, genRangeAux]

/-! ## Claim theorems -/

/-- C4: `normalizeValue` always lands in `[0,1]`; for `min < max` it is the
linear scaling `(value - min)/(max - min)` clamped to `[0,1]` (below-min
values give 0, above-max values give 1); for `min == max` it returns 1 on
positive values and 0 otherwise; and the four concrete instances of the
claim hold. -/
theorem C4_normalizeValue (value vmin vmax : ℚ) :
    (0 ≤ normalizeValue value vmin vmax ∧ normalizeValue value vmin vmax ≤ 1)
    ∧ (vmin < vmax →
        normalizeValue value vmin vmax
            = Max.max 0 (Min.min 1 ((value - vmin) / (vmax - vmin)))
        ∧ (value < vmin → normalizeValue value vmin vmax = 0)
        ∧ (vmax < value → normalizeValue value vmin vmax = 1))
    ∧ (vmin = vmax →
        normalizeValue value vmin vmax = if value > 0 then 1 else 0)
    ∧ normalizeValue 5 0 10 = 1 / 2
    ∧ normalizeValue (-1) 0 10 = 0
    ∧ normalizeValue 15 0 10 = 1
    ∧ normalizeValue 5 5 5 = 1 := by
  refine ⟨?_, ?_, ?_, ?_, ?_, ?_, ?_⟩
  · unfold normalizeValue
    split
    · split <;> norm_num
    · constructor
      · exact le_max_left 0 _
      · exact max_le (by norm_num) (min_le_left 1 _)
  · intro hlt
    have hne : ¬ vmax = vmin := ne_of_gt hlt
    refine ⟨by simp [normalizeValue, hne], ?_, ?_⟩
    · intro hv
      have hq : (value - vmin) / (vmax - vmin) < 0 :=
        div_neg_of_neg_of_pos (by linarith) (by linarith)
      have h1 : Min.min 1 ((value - vmin) / (vmax - vmin))
          = (value - vmin) / (vmax - vmin) := min_eq_right (by linarith)
      simp only [normalizeValue, hne, if_false, h1]
      exact max_eq_left (le_of_lt hq)
    · intro hv
      have hpos : (0 : ℚ) < vmax - vmin := by linarith
      have hq : 1 < (value - vmin) / (vmax - vmin) :=
        (one_lt_div hpos).mpr (by linarith)
      have h1 : Min.min 1 ((value - vmin) / (vmax - vmin)) = 1 :=
        min_eq_left (le_of_lt hq)
      simp only [normalizeValue, hne, if_false, h1]
      exact max_eq_right (by norm_num)
  · intro h
    simp [normalizeValue, h]
  · norm_num [normalizeValue]
  · norm_num [normalizeValue]
  · norm_num [normalizeValue]
  · norm_num [normalizeValue]

theorem C4_normalizeValue_witness :
    (0 : ℚ) < 10
      ∧ normalizeValue 5 0 10 = Max.max 0 (Min.min 1 ((5 - 0) / (10 - 0))) :=
  ⟨by norm_num, ((C4_normalizeValue 5 0 10).2.1 (by norm_num)).1⟩

theorem processHeatmapData_length (data : List HeatmapData) (s e : Int)
    (cs : ColorSchemeInput) (layout : Layout) :
    (processHeatmapData data s e cs layout).length = (e + 1 - s).toNat := by
  simp [processHeatmapData, generateDateRange_length]

theorem processHeatmapData_getElem (data : List HeatmapData) (s e : Int)
    (cs : ColorSchemeInput) (layout : Layout) (i : Nat)
    (h : i < (processHeatmapData data s e cs layout).length) :
    (processHeatmapData data s e cs layout)[i]
      = processCell data s (generateDateRange s e).length (resolveColorScheme cs)
          (minValueOf data) (maxValueOf data) layout i (s + i) := by
  have h' : i < (generateDateRange s e).length := by
    simpa [processHeatmapData_length, generateDateRange_length] using h
  simp only [processHeatmapData, List.getElem_map, List.getElem_enum]
  rw [generateDateRange_getElem s e i h']

theorem processCell_date (data : List HeatmapData) (s : Int) (n : Nat)
    (r : ColorScheme) (mi ma : ℚ) (layout : Layout) (i : Nat) (d : Int) :
    (processCell data s n r mi ma layout i d).date = DateVal.iso d := rfl

theorem processCell_normalizedValue (data : List HeatmapData) (s : Int) (n : Nat)
    (r : ColorScheme) (mi ma : ℚ) (layout : Layout) (i : Nat) (d : Int) :
    (processCell data s n r mi ma layout i d).normalizedValue
      = normalizeValue (processCell data s n r mi ma layout i d).value mi ma := rfl

theorem processCell_lookup_none (data : List HeatmapData) (s : Int) (n : Nat)
    (r : ColorScheme) (mi ma : ℚ) (layout : Layout) (i : Nat) (d : Int)
    (hl : lookupMap data (DateVal.iso d) = none) :
    (processCell data s n r mi ma layout i d).isEmpty = true
      ∧ (processCell data s n r mi ma layout i d).value = 0 := by
  constructor <;> simp [processCell, hl]

theorem processCell_lookup_defined (data : List HeatmapData) (s : Int) (n : Nat)
    (r : ColorScheme) (mi ma : ℚ) (layout : Layout) (i : Nat) (d : Int)
    (dp : HeatmapData) (v : ℚ)
    (hl : lookupMap data (DateVal.iso d) = some dp) (hv : dp.value = some v) :
    (processCell data s n r mi ma layout i d).isEmpty = false
      ∧ (processCell data s n r mi ma layout i d).value = v := by
  constructor <;> simp [processCell, hl, hv]

/-- Shared: the dates of the output of `processHeatmapData` are exactly the
dates of the requested range, in order. -/
theorem processHeatmapData_map_date (data : List HeatmapData) (s e : Int)
    (cs : ColorSchemeInput) (layout : Layout) :
    (processHeatmapData data s e cs layout).map ProcessedCellData.date
      = (List.range (e + 1 - s).toNat).map (fun (i : Nat) => DateVal.iso (s + (i : Int))) := by
  apply List.ext_getElem
  · simp [processHeatmapData_length]
  · intro i h1 h2
    have hi : i < (processHeatmapData data s e cs layout).length := by
      simpa using h1
    simp only [List.getElem_map, List.getElem_range]
    rw [processHeatmapData_getElem data s e cs layout i hi, processCell_date]

/-- C1: over any observation list and any range with `start ≤ end`,
`processHeatmapData` yields exactly one cell per date of the range, in date
order; a date whose (last-wins) matching observation has a defined value
gets `isEmpty = false` and that original value, and a date with no
matching observation gets a synthesized cell with `isEmpty = true` and
value 0. -/
theorem C1_dense_fill (data : List HeatmapData) (startDate endDate : Int)
    (colorScheme : ColorSchemeInput) (layout : Layout)
    (hle : startDate ≤ endDate) :
    ((processHeatmapData data startDate endDate colorScheme layout).map
        ProcessedCellData.date
      = (List.range (endDate + 1 - startDate).toNat).map
          (fun (i : Nat) => DateVal.iso (startDate + (i : Int))))
    ∧ (∀ i, (h : i < (processHeatmapData data startDate endDate colorScheme layout).length) →
        (∀ dp v,
          lookupMap data (DateVal.iso (startDate + i)) = some dp → dp.value = some v →
            ((processHeatmapData data startDate endDate colorScheme layout)[i]).isEmpty = false
            ∧ ((processHeatmapData data startDate endDate colorScheme layout)[i]).value = v)
        ∧ (lookupMap data (DateVal.iso (startDate + i)) = none →
            ((processHeatmapData data startDate endDate colorScheme layout)[i]).isEmpty = true
            ∧ ((processHeatmapData data startDate endDate colorScheme layout)[i]).value = 0)) := by
  refine ⟨processHeatmapData_map_date data startDate endDate colorScheme layout, ?_⟩
  intro i h
  rw [processHeatmapData_getElem data startDate endDate colorScheme layout i h]
  constructor
  · intro dp v hl hv
    exact processCell_lookup_defined data startDate _ _ _ _ layout i _ dp v hl hv
  · intro hl
    exact processCell_lookup_none data startDate _ _ _ _ layout i _ hl

/-- A two-color scheme used by concrete witnesses. -/
def testScheme : ColorScheme :=
  { name := "test"
    colors := [.rgb 255 255 255, .rgb 0 0 0]
    levels := none
    emptyColor := some (.rgb 240 240 240) }

/-- Sample observations used by concrete witnesses. -/
def sampleObs : List HeatmapData :=
  [{ date := DateVal.iso 1, value := some 5, metadata := none }]

/-- C7: an empty observation list is valid input (every cell of the range
is synthesized empty, nothing is raised — the embedded function is total),
and a reversed range yields the empty output sequence rather than an
error. -/
theorem C7_empty_inputs (data : List HeatmapData) (startDate endDate : Int)
    (colorScheme : ColorSchemeInput) (layout : Layout) :
    (endDate < startDate →
      processHeatmapData data startDate endDate colorScheme layout = [])
    ∧ ((processHeatmapData [] startDate endDate colorScheme layout).map
          ProcessedCellData.date
        = (List.range (endDate + 1 - startDate).toNat).map
            (fun (i : Nat) => DateVal.iso (startDate + (i : Int))))
    ∧ (∀ c ∈ processHeatmapData [] startDate endDate colorScheme layout,
        c.isEmpty = true ∧ c.value = 0) := by
  refine ⟨?_, processHeatmapData_map_date [] startDate endDate colorScheme layout, ?_⟩
  · intro hlt
    simp [processHeatmapData, generateDateRange_empty_of_lt startDate endDate hlt]
  · intro c hc
    rcases List.mem_iff_getElem.mp hc with ⟨i, hi, rfl⟩
    rw [processHeatmapData_getElem [] startDate endDate colorScheme layout i hi]
    exact processCell_lookup_none [] startDate _ _ _ _ layout i _ rfl

theorem C7_empty_inputs_witness :
    (2 : Int) < 5
    ∧ processHeatmapData sampleObs 5 2 (ColorSchemeInput.inline testScheme)
        Layout.grid = [] :=
  ⟨by decide,
   (C7_empty_inputs sampleObs 5 2 (ColorSchemeInput.inline testScheme)
      Layout.grid).1 (by decide)⟩

/-- C6: grid coordinates per layout kind: calendar uses
`x = floor(daysSinceRangeStart / 7)`, `y = dayOfWeek` (0 = Sunday); grid
uses `columns = ceil(sqrt(totalDates))`, `x = index % columns`,
`y = floor(index / columns)`; compact uses `x = index`, `y = 0`; custom
falls back to the grid policy. -/
theorem C6_layout_coords (data : List HeatmapData) (s e : Int)
    (cs : ColorSchemeInput) (layout : Layout) (i : Nat)
    (h : i < (processHeatmapData data s e cs layout).length) :
    ((processHeatmapData data s e cs layout)[i]).date = DateVal.iso (s + (i : Int))
    ∧ (layout = Layout.calendar →
        ((processHeatmapData data s e cs layout)[i]).x
            = Int.fdiv ((s + (i : Int)) - s) 7
        ∧ ((processHeatmapData data s e cs layout)[i]).y
            = getDayOfWeek (s + (i : Int)))
    ∧ (layout = Layout.grid →
        ((processHeatmapData data s e cs layout)[i]).x
            = ((i % ceilSqrt (e + 1 - s).toNat : Nat) : Int)
        ∧ ((processHeatmapData data s e cs layout)[i]).y
            = ((i / ceilSqrt (e + 1 - s).toNat : Nat) : Int))
    ∧ (layout = Layout.compact →
        ((processHeatmapData data s e cs layout)[i]).x = (i : Int)
        ∧ ((processHeatmapData data s e cs layout)[i]).y = 0)
    ∧ (layout = Layout.custom →
        ((processHeatmapData data s e cs layout)[i]).x
            = ((i % ceilSqrt (e + 1 - s).toNat : Nat) : Int)
        ∧ ((processHeatmapData data s e cs layout)[i]).y
            = ((i / ceilSqrt (e + 1 - s).toNat : Nat) : Int)) := by
  rw [processHeatmapData_getElem data s e cs layout i h]
  refine ⟨rfl, ?_, ?_, ?_, ?_⟩
  all_goals intro hl
  all_goals subst hl
  all_goals constructor
  all_goals simp [processCell, generateDateRange_length]

theorem C6_layout_coords_witness :
    1 < (processHeatmapData sampleObs 0 2 (ColorSchemeInput.inline testScheme)
          Layout.compact).length
    ∧ ((processHeatmapData sampleObs 0 2 (ColorSchemeInput.inline testScheme)
          Layout.compact).getD 1 (emptyWeekCell 0 0 0)).x = 1 := by
  have h : 1 < (processHeatmapData sampleObs 0 2
      (ColorSchemeInput.inline testScheme) Layout.compact).length := by
    rw [processHeatmapData_length]
    decide
  refine ⟨h, ?_⟩
  have hx := ((C6_layout_coords sampleObs 0 2 (ColorSchemeInput.inline testScheme)
      Layout.compact 1 h).2.2.2.1 rfl).1
  rw [List.getD_eq_getElem?_getD, List.getElem?_eq_getElem h]
  simpa using hx

theorem foldr_min_le_zero (l : List ℚ) : l.foldr Min.min 0 ≤ 0 := by
  induction l with
  | nil => exact le_refl 0
  | cons a t ih => exact le_trans (min_le_right a _) ih

theorem foldr_min_le_mem (l : List ℚ) (v : ℚ) (hv : v ∈ l) :
    l.foldr Min.min 0 ≤ v := by
  induction l with
  | nil => cases hv
  | cons a t ih =>
      rcases List.mem_cons.mp hv with h | h
      · subst h; exact min_le_left _ _
      · exact le_trans (min_le_right a _) (ih h)

theorem foldr_min_mem_or (l : List ℚ) :
    l.foldr Min.min 0 = 0 ∨ l.foldr Min.min 0 ∈ l := by
  induction l with
  | nil => exact Or.inl rfl
  | cons a t ih =>
      rcases min_choice a (t.foldr Min.min 0) with h | h
      · exact Or.inr (by rw [List.foldr_cons, h]; exact List.mem_cons_self a t)
      · rcases ih with h0 | hm
        · exact Or.inl (by rw [List.foldr_cons, h, h0])
        · exact Or.inr (by rw [List.foldr_cons, h]; exact List.mem_cons_of_mem a hm)

theorem foldr_max_zero_le (l : List ℚ) : 0 ≤ l.foldr Max.max 0 := by
  induction l with
  | nil => exact le_refl 0
  | cons a t ih => exact le_trans ih (le_max_right a _)

theorem foldr_max_mem_le (l : List ℚ) (v : ℚ) (hv : v ∈ l) :
    v ≤ l.foldr Max.max 0 := by
  induction l with
  | nil => cases hv
  | cons a t ih =>
      rcases List.mem_cons.mp hv with h | h
      · subst h; exact le_max_left _ _
      · exact le_trans (ih h) (le_max_right a _)

theorem foldr_max_mem_or (l : List ℚ) :
    l.foldr Max.max 0 = 0 ∨ l.foldr Max.max 0 ∈ l := by
  induction l with
  | nil => exact Or.inl rfl
  | cons a t ih =>
      rcases max_choice a (t.foldr Max.max 0) with h | h
      · exact Or.inr (by rw [List.foldr_cons, h]; exact List.mem_cons_self a t)
      · rcases ih with h0 | hm
        · exact Or.inl (by rw [List.foldr_cons, h, h0])
        · exact Or.inr (by rw [List.foldr_cons, h]; exact List.mem_cons_of_mem a hm)

/-- C10: the normalization bounds are `min(0, observed values)` and
`max(0, observed values)` — zero always belongs to the normalization
interval — and every output cell is normalized with exactly these bounds;
all-positive data gives lower bound 0, all-negative data gives upper bound
0, and empty data gives the degenerate `0 = min = max` policy. -/
theorem C10_normalization_bounds (data : List HeatmapData) (s e : Int)
    (cs : ColorSchemeInput) (layout : Layout) :
    (minValueOf data ≤ 0 ∧ ∀ v ∈ observedValues data, minValueOf data ≤ v)
    ∧ (minValueOf data = 0 ∨ minValueOf data ∈ observedValues data)
    ∧ (0 ≤ maxValueOf data ∧ ∀ v ∈ observedValues data, v ≤ maxValueOf data)
    ∧ (maxValueOf data = 0 ∨ maxValueOf data ∈ observedValues data)
    ∧ ((∀ v ∈ observedValues data, 0 < v) → minValueOf data = 0)
    ∧ ((∀ v ∈ observedValues data, v < 0) → maxValueOf data = 0)
    ∧ (data = [] → minValueOf data = 0 ∧ maxValueOf data = 0)
    ∧ (∀ c ∈ processHeatmapData data s e cs layout,
        c.normalizedValue
          = normalizeValue c.value (minValueOf data) (maxValueOf data)) := by
  refine ⟨⟨foldr_min_le_zero _, fun v hv => foldr_min_le_mem _ v hv⟩,
    foldr_min_mem_or _,
    ⟨foldr_max_zero_le _, fun v hv => foldr_max_mem_le _ v hv⟩,
    foldr_max_mem_or _, ?_, ?_, ?_, ?_⟩
  · intro hpos
    rcases foldr_min_mem_or (observedValues data) with h0 | hm
    · exact h0
    · exact absurd (hpos _ hm) (not_lt.mpr (foldr_min_le_zero _))
  · intro hneg
    rcases foldr_max_mem_or (observedValues data) with h0 | hm
    · exact h0
    · exact absurd (hneg _ hm) (not_lt.mpr (foldr_max_zero_le _))
  · intro h
    subst h
    exact ⟨rfl, rfl⟩
  · intro c hc
    rcases List.mem_iff_getElem.mp hc with ⟨i, hi, rfl⟩
    rw [processHeatmapData_getElem data s e cs layout i hi]
    exact processCell_normalizedValue data s _ _ _ _ layout i _

theorem C10_normalization_bounds_witness :
    ((∀ v ∈ observedValues sampleObs, 0 < v) ∧ minValueOf sampleObs = 0) := by
  have h := (C10_normalization_bounds sampleObs 0 2
      (ColorSchemeInput.inline testScheme) Layout.calendar).2.2.2.2.1
  have hpos : ∀ v ∈ observedValues sampleObs, (0 : ℚ) < v := by
    intro v hv
    simp only [sampleObs, observedValues, List.filterMap] at hv
    norm_num at hv
    simp [hv]
  exact ⟨hpos, h hpos⟩

theorem C1_dense_fill_witness :
    (0 : Int) ≤ 2
    ∧ (processHeatmapData sampleObs 0 2 (ColorSchemeInput.inline testScheme)
          Layout.calendar).map ProcessedCellData.date
        = (List.range ((2 : Int) + 1 - 0).toNat).map (fun (i : Nat) => DateVal.iso (0 + (i : Int))) :=
  ⟨by decide,
   (C1_dense_fill sampleObs 0 2 (ColorSchemeInput.inline testScheme)
      Layout.calendar (by decide)).1⟩

/-! ## Month boundary segments: chain invariants -/

/-- `SegChain a l b`: the segments of `l` tile `[a, b)` contiguously, each
starting where the previous one ended. -/
def SegChain : Int → List MonthBoundary → Int → Prop
  | a, [], b => a = b
  | a, sg :: rest, b => sg.x = a ∧ SegChain (a + sg.width) rest b

theorem segChain_append (a b c : Int) (l : List MonthBoundary) (mo : String)
    (h : SegChain a l b) :
    SegChain a (l ++ [{ month := mo, x := b, width := c - b }]) c := by
  induction l generalizing a with
  | nil =>
      simp only [SegChain] at h
      subst h
      exact ⟨rfl, by simp [SegChain]⟩
  | cons sg rest ih =>
      exact ⟨h.1, ih (a + sg.width) h.2⟩

theorem segChain_head (a b : Int) (l : List MonthBoundary) (h : SegChain a l b) :
    ∀ sg, l.head? = some sg → sg.x = a := by
  cases l with
  | nil => intro sg hsg; simp at hsg
  | cons s t =>
      intro sg hsg
      simp only [List.head?_cons, Option.some.injEq] at hsg
      subst hsg
      exact h.1

theorem segChain_consec (l : List MonthBoundary) (a b : Int) (h : SegChain a l b) :
    ∀ i, (hi : i + 1 < l.length) → l[i + 1].x = l[i].x + l[i].width := by
  induction l generalizing a with
  | nil => intro i hi; simp at hi
  | cons s t ih =>
      intro i hi
      cases i with
      | zero =>
          cases t with
          | nil => simp at hi
          | cons s2 t2 =>
              have h2 := h.2.1
              simp only [List.getElem_cons_succ, List.getElem_cons_zero]
              rw [h2, h.1]
      | succ j =>
          have hj : j + 1 < t.length := by simpa using hi
          have := ih (a + s.width) h.2 j hj
          simpa using this

theorem segChain_last (l : List MonthBoundary) (a b : Int) (h : SegChain a l b) :
    ∀ sg, l.getLast? = some sg → sg.x + sg.width = b := by
  induction l generalizing a with
  | nil => intro sg hsg; simp at hsg
  | cons s t ih =>
      intro sg hsg
      cases t with
      | nil =>
          simp only [List.getLast?_singleton, Option.some.injEq] at hsg
          subst hsg
          rw [h.1]
          have h2 : SegChain (a + s.width) [] b := h.2
          simpa [SegChain] using h2
      | cons s2 t2 =>
          rw [List.getLast?_cons_cons] at hsg
          exact ih (a + s.width) h.2 sg hsg

theorem mbStep_chain (sd mw : Int) (st : MBState) (w : Int) (hw : 0 ≤ w)
    (h : SegChain 0 st.monthBoundaries st.monthStart) :
    SegChain 0 (mbStep sd mw st w).monthBoundaries (mbStep sd mw st w).monthStart := by
  unfold mbStep
  by_cases h1 : (getMonth (sd + w * 7) != st.currentMonth || w == mw) = true
  · rw [if_pos h1]
    by_cases h2 : (st.monthBoundaries.length > 0 || w > 0) = true
    · simp only [h2, if_true]
      exact segChain_append 0 st.monthStart w st.monthBoundaries _ h
    · simp only [h2, if_false]
      have hb : st.monthBoundaries = [] := by
        simp only [Bool.or_eq_true, decide_eq_true_eq, not_or] at h2
        exact List.length_eq_zero.mp (by omega)
      have hw0 : w = 0 := by
        simp only [Bool.or_eq_true, decide_eq_true_eq, not_or] at h2
        omega
      rw [hb] at h ⊢
      simp only [SegChain] at h ⊢
      omega
  · rw [if_neg h1]
    exact h

theorem foldl_mbStep_chain (sd mw : Int) (l : List Nat) (st : MBState)
    (h : SegChain 0 st.monthBoundaries st.monthStart) :
    SegChain 0
      ((l.foldl (fun acc (w : Nat) => mbStep sd mw acc (w : Int)) st).monthBoundaries)
      ((l.foldl (fun acc (w : Nat) => mbStep sd mw acc (w : Int)) st).monthStart) := by
  induction l generalizing st with
  | nil => exact h
  | cons a t ih =>
      exact ih _ (mbStep_chain sd mw st (a : Int) (Int.natCast_nonneg a) h)

theorem mbStep_final (sd mw : Int) (st : MBState) (hmw : 1 ≤ mw)
    (h : SegChain 0 st.monthBoundaries st.monthStart) :
    (mbStep sd mw st mw).monthBoundaries ≠ []
    ∧ SegChain 0 ((mbStep sd mw st mw).monthBoundaries) mw := by
  have h1 : (getMonth (sd + mw * 7) != st.currentMonth || mw == mw) = true := by
    simp
  have h2 : (st.monthBoundaries.length > 0 || mw > 0) = true := by
    simp only [Bool.or_eq_true, decide_eq_true_eq]
    right
    omega
  unfold mbStep
  rw [if_pos h1]
  simp only [h2, if_true]
  refine ⟨by simp, ?_⟩
  exact segChain_append 0 st.monthStart mw st.monthBoundaries _ h

/-- C2 (amended): whenever the maximum week index `m` of the cell list is
at least 1, the month boundary segments are nonempty, contiguous and
non-overlapping: the first starts at week 0, each next segment starts
where the previous ended, and the last ends at `m` (exclusive — segments
tile the half-open span `[0, m)`, so the final week column `m` itself is
not inside any segment). -/
theorem C2_month_boundaries (cells : List ProcessedCellData) (startDate m : Int)
    (hm : maxWeekOf cells = some m) (h1 : 1 ≤ m) :
    (calculateCalendarLayout cells startDate).monthBoundaries ≠ []
    ∧ (∀ sg, (calculateCalendarLayout cells startDate).monthBoundaries.head? = some sg
        → sg.x = 0)
    ∧ (∀ i, (hi : i + 1 < (calculateCalendarLayout cells startDate).monthBoundaries.length)
        → ((calculateCalendarLayout cells startDate).monthBoundaries[i + 1]).x
            = ((calculateCalendarLayout cells startDate).monthBoundaries[i]).x
              + ((calculateCalendarLayout cells startDate).monthBoundaries[i]).width)
    ∧ (∀ sg, (calculateCalendarLayout cells startDate).monthBoundaries.getLast? = some sg
        → sg.x + sg.width = m) := by
  have hcount : (m + 1).toNat = m.toNat + 1 := by omega
  have hcast : ((m.toNat : Nat) : Int) = m := by omega
  have hbs : (calculateCalendarLayout cells startDate).monthBoundaries
      = (mbStep startDate m
          ((List.range m.toNat).foldl
            (fun acc (w : Nat) => mbStep startDate m acc (w : Int))
            { currentMonth := getMonth startDate, monthStart := 0, monthBoundaries := [] })
          m).monthBoundaries := by
    simp only [calculateCalendarLayout, hm, hcount, List.range_succ, List.foldl_append,
      List.foldl_cons, List.foldl_nil]
    rw [hcast]
  have hchain : SegChain 0
      (((List.range m.toNat).foldl
          (fun acc (w : Nat) => mbStep startDate m acc (w : Int))
          { currentMonth := getMonth startDate, monthStart := 0,
            monthBoundaries := [] }).monthBoundaries)
      (((List.range m.toNat).foldl
          (fun acc (w : Nat) => mbStep startDate m acc (w : Int))
          { currentMonth := getMonth startDate, monthStart := 0,
            monthBoundaries := [] }).monthStart) :=
    foldl_mbStep_chain startDate m (List.range m.toNat) _ (by simp [SegChain])
  have hfin := mbStep_final startDate m _ h1 hchain
  rw [hbs]
  exact ⟨hfin.1, segChain_head 0 m _ hfin.2, fun i hi => segChain_consec _ 0 m hfin.2 i hi,
    segChain_last _ 0 m hfin.2⟩

/-- C2 counterexample: over the valid non-empty one-day range
`[0, 0]` the calendar cell list is non-empty with maximum week index 0,
yet the month boundary list is empty — no segment covers week index 0,
so the segments do not span every week index from 0 to `maxWeek`. -/
theorem C2_month_boundaries_counterexample :
    processHeatmapData [] 0 0 (ColorSchemeInput.inline testScheme) Layout.calendar ≠ []
    ∧ maxWeekOf (processHeatmapData [] 0 0 (ColorSchemeInput.inline testScheme)
        Layout.calendar) = some 0
    ∧ (calculateCalendarLayout
        (processHeatmapData [] 0 0 (ColorSchemeInput.inline testScheme) Layout.calendar)
        0).monthBoundaries = [] := by
  refine ⟨by decide, rfl, rfl⟩

theorem C2_month_boundaries_witness :
    maxWeekOf (processHeatmapData [] 0 13 (ColorSchemeInput.inline testScheme)
        Layout.calendar) = some 1
    ∧ (calculateCalendarLayout
        (processHeatmapData [] 0 13 (ColorSchemeInput.inline testScheme) Layout.calendar)
        0).monthBoundaries ≠ [] := by
  have hm : maxWeekOf (processHeatmapData [] 0 13 (ColorSchemeInput.inline testScheme)
      Layout.calendar) = some 1 := rfl
  exact ⟨hm,
    (C2_month_boundaries
      (processHeatmapData [] 0 13 (ColorSchemeInput.inline testScheme) Layout.calendar)
      0 1 hm (by omega)).1⟩

theorem fullWeekFor_length (cells : List ProcessedCellData) (sd : Int) (w : Nat) :
    (fullWeekFor cells sd w).length = 7 := by
  simp [fullWeekFor]

theorem fullWeekFor_getElem (cells : List ProcessedCellData) (sd : Int) (w i : Nat)
    (hi : i < (fullWeekFor cells sd w).length) :
    (fullWeekFor cells sd w)[i]
      = match (cells.filter (fun d => d.x == (w : Int))).find?
            (fun d => d.y == (i : Int)) with
        | some existingCell => existingCell
        | none => emptyWeekCell sd w i := by
  have hi7 : i < 7 := by simpa [fullWeekFor_length] using hi
  simp only [fullWeekFor, List.getElem_map, List.getElem_range]

theorem weekData_getElem (cells : List ProcessedCellData) (sd : Int) (w : Nat)
    (hw : w < (calculateCalendarLayout cells sd).weekData.length) :
    (calculateCalendarLayout cells sd).weekData[w] = fullWeekFor cells sd w := by
  simp only [calculateCalendarLayout] at hw ⊢
  simp only [List.getElem_map, List.getElem_range]

/-- C8: every week bucket built by `calculateCalendarLayout` has exactly 7
cells ordered by day index 0..6, and a day index with no matching input
cell is filled by a synthesized empty cell dated
`startDate + week*7 + dayOffset`. -/
theorem C8_week_buckets (cells : List ProcessedCellData) (startDate : Int) :
    (∀ wk ∈ (calculateCalendarLayout cells startDate).weekData, wk.length = 7)
    ∧ (∀ w, (hw : w < (calculateCalendarLayout cells startDate).weekData.length) →
        ∀ i, (hi : i < ((calculateCalendarLayout cells startDate).weekData[w]).length) →
          (((calculateCalendarLayout cells startDate).weekData[w])[i]).y = (i : Int)
          ∧ ((∀ c ∈ cells, ¬(c.x = (w : Int) ∧ c.y = (i : Int))) →
              (((calculateCalendarLayout cells startDate).weekData[w])[i]).date
                  = DateVal.iso (startDate + (w : Int) * 7 + (i : Int))
              ∧ (((calculateCalendarLayout cells startDate).weekData[w])[i]).isEmpty = true
              ∧ (((calculateCalendarLayout cells startDate).weekData[w])[i]).value = 0)) := by
  constructor
  · intro wk hwk
    rcases List.mem_iff_getElem.mp hwk with ⟨w, hw, rfl⟩
    rw [weekData_getElem cells startDate w hw]
    exact fullWeekFor_length cells startDate w
  · intro w hw i hi
    have hi' : i < (fullWeekFor cells startDate w).length := by
      rw [weekData_getElem cells startDate w hw] at hi
      exact hi
    have hrw : ((calculateCalendarLayout cells startDate).weekData[w])[i]
        = (fullWeekFor cells startDate w)[i] := by
      congr 1
      exact weekData_getElem cells startDate w hw
    rw [hrw, fullWeekFor_getElem cells startDate w i hi']
    rcases hfind : (cells.filter (fun d => d.x == (w : Int))).find?
        (fun d => d.y == (i : Int)) with _ | c
    · simp only [hfind]
      refine ⟨rfl, fun _ => ⟨rfl, rfl, rfl⟩⟩
    · simp only [hfind]
      have hy := List.find?_some hfind
      simp only [beq_iff_eq] at hy
      refine ⟨hy, ?_⟩
      intro hmiss
      exfalso
      have hc : c ∈ cells.filter (fun d => d.x == (w : Int)) :=
        List.mem_of_find?_eq_some hfind
      have hcx : c ∈ cells ∧ c.x = (w : Int) := by
        have := List.mem_filter.mp hc
        simpa [beq_iff_eq] using this
      exact hmiss c hcx.1 ⟨hcx.2, hy⟩

theorem C8_week_buckets_witness :
    ((calculateCalendarLayout
        (processHeatmapData [] 0 0 (ColorSchemeInput.inline testScheme) Layout.calendar)
        0).weekData.getD 0 []).length = 7 := by
  have hlen : (calculateCalendarLayout
      (processHeatmapData [] 0 0 (ColorSchemeInput.inline testScheme) Layout.calendar)
      0).weekData.length = 1 := by
    simp only [calculateCalendarLayout]
    rfl
  have hmem : (calculateCalendarLayout
      (processHeatmapData [] 0 0 (ColorSchemeInput.inline testScheme) Layout.calendar)
      0).weekData.getD 0 [] ∈ (calculateCalendarLayout
      (processHeatmapData [] 0 0 (ColorSchemeInput.inline testScheme) Layout.calendar)
      0).weekData := by
    rw [List.getD_eq_getElem?_getD, List.getElem?_eq_getElem (by omega)]
    exact List.getElem_mem _
  exact (C8_week_buckets
    (processHeatmapData [] 0 0 (ColorSchemeInput.inline testScheme) Layout.calendar)
    0).1 _ hmem

theorem mathCeil_div7_toNat (a : Int) :
    (mathCeil ((a : ℚ) / 7)).toNat = (a.toNat + 6) / 7 := by
  have hfloor : Int.floor ((((-a : ℤ) : ℚ)) / ((7 : ℕ) : ℚ)) = (-a) / (7 : ℤ) :=
    Rat.floor_intCast_div_natCast (-a) 7
  have hneg : -((a : ℚ) / 7) = (((-a : ℤ) : ℚ)) / ((7 : ℕ) : ℚ) := by
    push_cast
    ring
  have hceil : mathCeil ((a : ℚ) / 7) = -((-a) / (7 : ℤ)) := by
    unfold mathCeil
    rw [show ((a : ℚ) / 7) = -(-((a : ℚ) / 7)) by ring, Int.ceil_neg, hneg, hfloor]
  rw [hceil]
  omega

/-- C9: on an empty cell list none of the time-windowed layouts throws
(the embedded functions are total) and each returns its full fixed-size
slot structure filled with empty cells: 24 hour slots for daily, 7 day
slots for weekly, and `ceil((daysInMonth + firstWeekdayOffset)/7)` weeks
of 7 cells for monthly. -/
theorem C9_time_layouts_empty (t : Int) (fmt : TimeFormat) :
    (calculateDailyLayout [] t fmt).hours = 24
    ∧ (calculateDailyLayout [] t fmt).hourData.length = 24
    ∧ (∀ c ∈ (calculateDailyLayout [] t fmt).hourData,
        c.isEmpty = true ∧ c.value = 0)
    ∧ (calculateWeeklyLayout [] t).days = 7
    ∧ (calculateWeeklyLayout [] t).dayData.length = 7
    ∧ (∀ c ∈ (calculateWeeklyLayout [] t).dayData,
        c.isEmpty = true ∧ c.value = 0)
    ∧ (calculateMonthlyLayout [] t).monthData.length
        = (((calculateMonthlyLayout [] t).daysInMonth
            + getDayOfWeek (jsMakeDate (getFullYear t) (getMonth t) 1)).toNat + 6) / 7
    ∧ (∀ wk ∈ (calculateMonthlyLayout [] t).monthData, wk.length = 7
        ∧ ∀ c ∈ wk, c.isEmpty = true ∧ c.value = 0) := by
  refine ⟨rfl, ?_, ?_, rfl, ?_, ?_, ?_, ?_⟩
  · simp [calculateDailyLayout]
  · intro c hc
    simp only [calculateDailyLayout, List.filter_nil, List.find?_nil,
      List.mem_map, List.mem_range] at hc
    obtain ⟨hour, _, rfl⟩ := hc
    exact ⟨rfl, rfl⟩
  · simp [calculateWeeklyLayout, List.enum_length]
  · intro c hc
    simp only [calculateWeeklyLayout, List.find?_nil, List.mem_map] at hc
    obtain ⟨p, _, rfl⟩ := hc
    exact ⟨rfl, rfl⟩
  · simp only [calculateMonthlyLayout, List.length_map, List.length_range]
    exact mathCeil_div7_toNat _
  · intro wk hwk
    simp only [calculateMonthlyLayout, List.mem_map, List.mem_range] at hwk
    obtain ⟨week, _, rfl⟩ := hwk
    constructor
    · simp
    · intro c hc
      simp only [List.find?_nil, List.mem_map, List.mem_range] at hc
      obtain ⟨day, _, rfl⟩ := hc
      split
      · exact ⟨rfl, rfl⟩
      · exact ⟨rfl, rfl⟩

theorem C9_time_layouts_empty_witness :
    (calculateDailyLayout [] 0 TimeFormat.h24).hours = 24
    ∧ (calculateWeeklyLayout [] 0).dayData.length = 7
    ∧ (calculateMonthlyLayout [] 0).monthData.length = 5 :=
  ⟨(C9_time_layouts_empty 0 TimeFormat.h24).1,
   (C9_time_layouts_empty 0 TimeFormat.h24).2.2.2.2.1,
   by
     rw [(C9_time_layouts_empty 0 TimeFormat.h24).2.2.2.2.2.2.1]
     rfl⟩

/-- Written from the words of the spec (for comparison with
`calculateColor`): scale the normalized value into palette index space by
`levels - 1` (levels defaulting to the color count), bracket it by the two
adjacent palette colors, and linearly interpolate the RGB components by
the fractional remainder. -/
def specBracketInterp (colors : List Color) (n : ℚ) : Color :=
  let scaled := n * ((colors.length : ℚ) - 1)
  let lower := Int.floor scaled
  interpolateColor (colorAt colors lower) (colorAt colors (lower + 1))
    (scaled - (lower : ℚ))

theorem jsRound_intCast (z : Int) : jsRound ((z : ℚ)) = z := by
  unfold jsRound
  rw [Int.floor_int_add]
  norm_num

theorem interpolateColor_zero (r g b r2 g2 b2 : Int) :
    interpolateColor (Color.rgb r g b) (Color.rgb r2 g2 b2) 0 = Color.rgb r g b := by
  simp [interpolateColor, jsRound_intCast]

theorem colorAt_mem (colors : List Color) (i : Int) (h0 : 0 ≤ i)
    (hlt : i.toNat < colors.length) : colorAt colors i ∈ colors := by
  rw [colorAt, dif_pos ⟨h0, hlt⟩]
  exact List.get_mem colors _ _

/-- C5: for any palette with a non-empty color list, the empty-cell branch
returns `emptyColor` (or the first palette color when unset) independently
of the normalized value, `calculateColor 0 ... false` returns the same
color, any normalized value at least 1 returns exactly the last palette
color, and for `0 < n < 1` (with the default levels and a palette of at
least two hex colors) the result is the piecewise-linear RGB interpolation
between the two adjacent palette colors bracketing `n * (levels - 1)`. -/
theorem C5_calculateColor (p : ColorScheme) (hne : p.colors ≠ []) :
    (∀ (n : ℚ) (c : Color), p.emptyColor = some c → calculateColor n p true = c)
    ∧ (∀ (n : ℚ) (hd : Color), p.emptyColor = none → p.colors.head? = some hd →
        calculateColor n p true = hd)
    ∧ (∀ n : ℚ, calculateColor 0 p false = calculateColor n p true)
    ∧ (∀ (n : ℚ) (lc : Color), 1 ≤ n → p.colors.getLast? = some lc →
        calculateColor n p false = lc)
    ∧ (∀ n : ℚ, 0 < n → n < 1 → p.levels = none → 2 ≤ p.colors.length →
        (∀ c ∈ p.colors, ∃ r g b, c = Color.rgb r g b) →
        calculateColor n p false = specBracketInterp p.colors n) := by
  have hL1 : 0 < p.colors.length := List.length_pos.mpr hne
  refine ⟨?_, ?_, ?_, ?_, ?_⟩
  · intro n c hec
    simp [calculateColor, hec]
  · intro n hd hec hhd
    simp [calculateColor, hec, List.headD_eq_head?_getD, hhd]
  · intro n
    simp [calculateColor]
  · intro n lc hn1 hlast
    have hn0 : (n == 0) = false := by
      simp only [beq_eq_false_iff_ne, ne_eq]
      intro h
      subst h
      linarith
    simp only [calculateColor, hn0, Bool.or_self, Bool.false_eq_true, if_false]
    rw [if_pos hn1]
    have hlast2 : p.colors.getLast hne = lc := by
      rw [List.getLast?_eq_getLast p.colors hne] at hlast
      exact Option.some.inj hlast
    rw [List.getLast_eq_getElem] at hlast2
    have hb : (0 : Int) ≤ (p.colors.length : Int) - 1 ∧
        ((p.colors.length : Int) - 1).toNat < p.colors.length := by omega
    rw [colorAt, dif_pos hb]
    rw [← hlast2]
    simp only [List.get_eq_getElem]
    congr 1
    omega
  · intro n h0 h1 hlev hL2 hrgb
    have hn0 : (n == 0) = false := by
      simp only [beq_eq_false_iff_ne, ne_eq]
      exact ne_of_gt h0
    have hnge : ¬ n ≥ 1 := not_le.mpr h1
    have hLq : (2 : ℚ) ≤ (p.colors.length : ℚ) := by exact_mod_cast hL2
    have hsc_nonneg : 0 ≤ n * ((p.colors.length : ℚ) - 1) :=
      mul_nonneg (le_of_lt h0) (by linarith)
    have hsc_lt : n * ((p.colors.length : ℚ) - 1) < (p.colors.length : ℚ) - 1 := by
      have := mul_lt_mul_of_pos_right h1 (show (0:ℚ) < (p.colors.length : ℚ) - 1 by linarith)
      simpa using this
    have hlow0 : 0 ≤ Int.floor (n * ((p.colors.length : ℚ) - 1)) :=
      Int.floor_nonneg.mpr hsc_nonneg
    have hlowlt : Int.floor (n * ((p.colors.length : ℚ) - 1))
        < (p.colors.length : Int) - 1 := by
      apply Int.floor_lt.mpr
      push_cast
      exact hsc_lt
    have hupper : Min.min (Int.floor (n * ((p.colors.length : ℚ) - 1)) + 1)
        ((p.colors.length : Int) - 1)
        = Int.floor (n * ((p.colors.length : ℚ) - 1)) + 1 := min_eq_left (by omega)
    have hneq : (Int.floor (n * ((p.colors.length : ℚ) - 1))
        == Int.floor (n * ((p.colors.length : ℚ) - 1)) + 1) = false := by
      simp only [beq_eq_false_iff_ne, ne_eq]
      omega
    simp only [calculateColor, hlev, hn0, Bool.or_self, Bool.false_eq_true, if_false]
    rw [if_neg hnge]
    simp only [hupper, hneq, Bool.or_false]
    unfold specBracketInterp
    simp only []
    rcases hfac : (n * ((p.colors.length : ℚ) - 1)
        - (Int.floor (n * ((p.colors.length : ℚ) - 1)) : ℚ) == 0) with _ | _
    · simp only [Bool.false_eq_true, if_false]
    · simp only [if_true]
      have hfac2 : n * ((p.colors.length : ℚ) - 1)
          - (Int.floor (n * ((p.colors.length : ℚ) - 1)) : ℚ) = 0 := by
        simpa [beq_iff_eq] using hfac
      have hmem : colorAt p.colors (Int.floor (n * ((p.colors.length : ℚ) - 1)))
          ∈ p.colors := colorAt_mem _ _ hlow0 (by omega)
      obtain ⟨r, g, b, hc1⟩ := hrgb _ hmem
      have hmem2 : colorAt p.colors (Int.floor (n * ((p.colors.length : ℚ) - 1)) + 1)
          ∈ p.colors := colorAt_mem _ _ (by omega) (by omega)
      obtain ⟨r2, g2, b2, hc2⟩ := hrgb _ hmem2
      rw [hfac2, hc1, hc2, interpolateColor_zero]

theorem C5_calculateColor_witness :
    testScheme.colors ≠ []
    ∧ calculateColor 1 testScheme false = Color.rgb 0 0 0 := by
  have hne : testScheme.colors ≠ [] := by simp [testScheme]
  exact ⟨hne, (C5_calculateColor testScheme hne).2.2.2.1 1 (Color.rgb 0 0 0) le_rfl rfl⟩

/-- C3 counterexample: on an invalid date endpoint `generateDateRange`
returns the empty sequence silently, and `parseISODate` on a malformed
string returns a JS Invalid Date value; no `DateRangeError` or
`DateParseError` is raised anywhere — neither type exists in the code and
the embedded operations are total value-returning functions with no error
channel. -/
theorem C3_no_error_counterexample :
    generateDateRangeJS none (some 0) = []
    ∧ generateDateRangeJS (some 0) none = []
    ∧ parseISODateStr DateString.malformed = none :=
  ⟨rfl, rfl, rfl⟩

/-- C3 (amended): invalid or unparseable date inputs never raise: the date
functions are total; `parseISODate` yields an Invalid Date sentinel, and
`generateDateRange` with an invalid endpoint silently yields the empty
sequence (callers receive an empty result rather than an exception). -/
theorem C3_invalid_dates_silent (e : Option Int) :
    generateDateRangeJS none e = []
    ∧ generateDateRangeJS e none = []
    ∧ parseISODateStr DateString.malformed = none
    ∧ parseISODate DateVal.blank = none := by
  refine ⟨?_, ?_, rfl, rfl⟩
  · cases e <;> rfl
  · cases e <;> rfl

end Heatmap
